import Mathlib

/-!
Verification development for the command-line chat client in src/main.py.

The development is a shallow embedding of the core of the program:
the tokenizer-based estimator num_tokens_from_messages, the window
trimming loop inside ask, the streaming consumer loop inside ask, and
the conversation loop inside main.  The tiktoken encoder is external to
the repository, so every definition is parameterised by an abstract
token counter tc : String -> Nat standing for the length of
encoding.encode applied to a string.  Python floats are carried, never
computed with, so the temperature value is modelled as a rational
number.  Machine integers do not overflow in any of the modelled code,
so counts are plain naturals.
-/

/-- One conversation message: a Python dict with keys role and content
and an optional name key, in that insertion order. -/
structure Turn where
  role : String
  content : String
  name : Option String
deriving DecidableEq

/-- Module-level constant of main.py, line 28. -/
def tokenLimit : Nat := 128000

/-- Per-field token cost of one message dict: the loop over
message.items() in num_tokens_from_messages adds the encoded length of
every value, plus one extra token when the key is the name key. -/
def turnFieldTokens (tc : String → Nat) (t : Turn) : Nat :=
  tc t.role + tc t.content +
    (match t.name with
     | some n => tc n + 1
     | none => 0)

/-- Token estimator of main.py, lines 31 to 46: three tokens per
message, the per-field costs, and a final constant of three. -/
def num_tokens_from_messages (tc : String → Nat) (messages : List Turn) : Nat :=
  (messages.foldl (fun acc m => acc + 3 + turnFieldTokens tc m) 0) + 3

/-- The while loop of ask, lines 81 to 82: while the estimate plus 100
exceeds the limit, pop the front message and recompute.  Popping an
empty list raises IndexError in Python, modelled as none. -/
def trimLoop (tc : String → Nat) (limit : Nat) : List Turn → Option (List Turn)
  | [] =>
    if num_tokens_from_messages tc [] + 100 > limit then none else some []
  | m :: ms =>
    if num_tokens_from_messages tc (m :: ms) + 100 > limit then
      trimLoop tc limit ms
    else
      some (m :: ms)

/-- The trimming step of ask, lines 80 to 82: the loop runs only when
the list has more than one message, and that guard is checked once,
before the loop, never again inside it. -/
def trim (tc : String → Nat) (limit : Nat) (messages : List Turn) : Option (List Turn) :=
  if messages.length > 1 then trimLoop tc limit messages else some messages

/-- One streamed server response: the sequence of delta contents of the
received chunks, where none stands for an absent content field.  The
failAfter form is a transport failure raised after the listed chunks
were delivered. -/
inductive StreamResponse where
  | ok (chunks : List (Option String))
  | failAfter (chunks : List (Option String))
deriving DecidableEq

/-- The request handed to client.chat.completions.create at line 83. -/
structure ChatRequest where
  model : String
  messages : List Turn
  temperature : ℚ
  stream : Bool
deriving DecidableEq

/-- Observable outcome of one call to ask: noop is the early return on
an empty conversation; popError is the IndexError raised when the trim
loop pops from an empty list; the other two record the in-place trimmed
message list, the request sent, the strings written to stdout, and for
a completed stream the accumulated buffer that is returned. -/
inductive AskOutcome where
  | noop
  | popError
  | completed (trimmed : List Turn) (request : ChatRequest) (writes : List String) (buffer : String)
  | transportFail (trimmed : List Turn) (request : ChatRequest) (writes : List String)
deriving DecidableEq

/-- Request sent by an ask call, if any. -/
def AskOutcome.requestOf : AskOutcome → Option ChatRequest
  | .completed _ req _ _ => some req
  | .transportFail _ req _ => some req
  | _ => none

/-- Strings written to stdout by an ask call. -/
def AskOutcome.writesOf : AskOutcome → List String
  | .completed _ _ ws _ => ws
  | .transportFail _ _ ws => ws
  | _ => []

/-- Value returned by a completed ask call. -/
def AskOutcome.bufferOf : AskOutcome → Option String
  | .completed _ _ _ buffer => some buffer
  | _ => none

/-- Trimmed message list left behind by the in-place pops of ask. -/
def AskOutcome.trimmedOf : AskOutcome → Option (List Turn)
  | .completed trimmed _ _ _ => some trimmed
  | .transportFail trimmed _ _ => some trimmed
  | _ => none

/-- Empty string constant. -/
def emptyString : String := ""

/-- Newline written by the bare print call at line 91. -/
def newlineString : String := "\n"

/-- The chunk loop of ask, lines 85 to 90, with its two accumulators:
the list of strings handed to print so far and the buffer built so far.
A chunk whose delta content is None is tested and skipped; any present
string, even an empty one, is printed and appended to the buffer. -/
def consumeFrom (written : List String) (buffer : String) : List (Option String) → List String × String
  | [] => (written, buffer)
  | none :: rest => consumeFrom written buffer rest
  | some c :: rest => consumeFrom (written ++ [c]) (buffer ++ c) rest

/-- The chunk loop started on empty accumulators. -/
def consume (chunks : List (Option String)) : List String × String :=
  consumeFrom [] emptyString chunks

/-- Concatenation of a list of strings, used to state what the buffer
accumulates to. -/
def concatAll : List String → String
  | [] => emptyString
  | s :: rest => s ++ concatAll rest

/-- Default temperature of ask, line 77, as a rational. -/
def defaultTemperature : ℚ := 7/10

/-- The function ask of main.py, lines 77 to 92.  The empty check comes
first, then the guarded trim loop mutates the message list in place,
then the request is issued with the global model and stream enabled,
then the chunk loop runs; a completed stream gets a final newline and
returns the buffer, a transport failure propagates as an exception
after the partial writes. -/
def ask (tc : String → Nat) (globalModel : String) (resp : StreamResponse) (messages : List Turn) (temperature : ℚ) : AskOutcome :=
  if messages.length = 0 then
    AskOutcome.noop
  else
    match trim tc tokenLimit messages with
    | none => AskOutcome.popError
    | some trimmed =>
      match resp with
      | StreamResponse.ok chunks =>
        let r := consume chunks
        AskOutcome.completed trimmed (ChatRequest.mk globalModel trimmed temperature true) (r.1 ++ [newlineString]) r.2
      | StreamResponse.failAfter chunks =>
        let r := consume chunks
        AskOutcome.transportFail trimmed (ChatRequest.mk globalModel trimmed temperature true) r.1

/-- Role strings used by main. -/
def roleSystem : String := "system"

/-- Role string of operator messages. -/
def roleUser : String := "user"

/-- Role string of model messages. -/
def roleAssistant : String := "assistant"

/-- Sentinel input of the interactive loop, line 128. -/
def exitWord : String := "exit"

/-- Persona message content of the interactive branch, lines 120 to 121. -/
def personaInteractive : String := "You are a cute cat running in a command line interface. The user can chat with you and the conversation can be continued."

/-- Persona message content of the single-shot branch, lines 135 to 136. -/
def personaSingle : String := "You are a cute cat runs in a command line interface and you can only respond once to the user. Do not ask any questions in your response."

/-- Leading system message of the interactive branch. -/
def systemTurnInteractive : Turn := Turn.mk roleSystem personaInteractive none

/-- Leading system message of the single-shot branch. -/
def systemTurnSingle : Turn := Turn.mk roleSystem personaSingle none

/-- Fresh user message appended for an operator input. -/
def userTurnOf (s : String) : Turn := Turn.mk roleUser s none

/-- Assistant message appended from the returned buffer. -/
def assistantTurnOf (s : String) : Turn := Turn.mk roleAssistant s none

/-- How a run of the conversation loop ended: graceful is the break on
the sentinel; eofError is the uncaught EOFError raised by input at end
of input; transportError is an uncaught streaming exception; popError
is an uncaught IndexError from the trim loop. -/
inductive LoopExit where
  | graceful
  | eofError
  | transportError
  | popError
deriving DecidableEq

/-- Observable result of a conversation-loop run: the final message
list, the requests issued in order, the strings written to stdout, how
the run ended, and the operator input lines never consumed. -/
structure LoopResult where
  conversation : List Turn
  requests : List ChatRequest
  writes : List String
  outcome : LoopExit
  leftover : List String
deriving DecidableEq

/-- The while loop of main, lines 126 to 132.  Each iteration reads one
input line; exhausted input raises EOFError; the sentinel breaks before
anything is appended or sent; otherwise the user message is appended
and ask is called with no temperature argument, hence the default.
Exceptions from ask propagate and end the whole run.  The noop branch
is unreachable here because the message list passed to ask is never
empty; it is mapped to a graceful stop carrying the same observables. -/
def interactiveLoop (tc : String → Nat) (globalModel : String) (streams : Nat → StreamResponse) : Nat → List String → List Turn → List ChatRequest → List String → LoopResult
  | _, [], chat, reqs, outs => LoopResult.mk chat reqs outs LoopExit.eofError []
  | k, u :: rest, chat, reqs, outs =>
    if u = exitWord then
      LoopResult.mk chat reqs outs LoopExit.graceful rest
    else
      match ask tc globalModel (streams k) (chat ++ [userTurnOf u]) defaultTemperature with
      | AskOutcome.noop => LoopResult.mk (chat ++ [userTurnOf u]) reqs outs LoopExit.graceful rest
      | AskOutcome.popError => LoopResult.mk (chat ++ [userTurnOf u]) reqs outs LoopExit.popError rest
      | AskOutcome.completed trimmed req ws buffer =>
        interactiveLoop tc globalModel streams (k + 1) rest (trimmed ++ [assistantTurnOf buffer]) (reqs ++ [req]) (outs ++ ws)
      | AskOutcome.transportFail trimmed req ws =>
        LoopResult.mk trimmed (reqs ++ [req]) (outs ++ ws) LoopExit.transportError rest

/-- The interactive branch of main, lines 117 to 132: the two-message
starting conversation, the first ask call with the configured
temperature, the assistant append, then the loop.  The nth ask call of
the run receives the stream streams n.  The banner print of line 118 is
not part of the modelled sink. -/
def runInteractive (tc : String → Nat) (globalModel : String) (temperature : ℚ) (question : String) (inputs : List String) (streams : Nat → StreamResponse) : LoopResult :=
  let chat0 := [systemTurnInteractive, userTurnOf question]
  match ask tc globalModel (streams 0) chat0 temperature with
  | AskOutcome.noop => LoopResult.mk chat0 [] [] LoopExit.graceful inputs
  | AskOutcome.popError => LoopResult.mk chat0 [] [] LoopExit.popError inputs
  | AskOutcome.completed trimmed req ws buffer =>
    interactiveLoop tc globalModel streams 1 inputs (trimmed ++ [assistantTurnOf buffer]) [req] ws
  | AskOutcome.transportFail trimmed req ws =>
    LoopResult.mk trimmed [req] ws LoopExit.transportError inputs

/-- The single-shot branch of main, lines 133 to 140. -/
def runSingle (tc : String → Nat) (globalModel : String) (temperature : ℚ) (question : String) (resp : StreamResponse) : LoopResult :=
  let chat0 := [systemTurnSingle, userTurnOf question]
  match ask tc globalModel resp chat0 temperature with
  | AskOutcome.noop => LoopResult.mk chat0 [] [] LoopExit.graceful []
  | AskOutcome.popError => LoopResult.mk chat0 [] [] LoopExit.popError []
  | AskOutcome.completed trimmed req ws buffer =>
    LoopResult.mk (trimmed ++ [assistantTurnOf buffer]) [req] ws LoopExit.graceful []
  | AskOutcome.transportFail trimmed req ws =>
    LoopResult.mk trimmed [req] ws LoopExit.transportError []

/-- Parsed command-line arguments of main.py, lines 56 to 74, in
declaration order. -/
structure Args where
  token : String
  model : String
  version : Bool
  tokenCount : Bool
  stream : Bool
  temperature : ℚ
  tokenLimit : Nat
  setAPIKey : String
  setModel : String
  debug : Bool
  string : List String
deriving DecidableEq

/-- Separator of the positional words, line 114 and lines 122 and 137. -/
def spaceString : String := " "

/-- Join of the positional words. -/
def joinWords (ws : List String) : String := String.intercalate spaceString ws

/-- Observable result of one run of main: which early-return branch was
taken, or the loop result of the branch that talked to the endpoint. -/
inductive MainResult where
  | envWritten (envAPIKey envModel : String)
  | versionOnly
  | tokenCountShown (count : Nat)
  | ranSingle (result : LoopResult)
  | ranInteractive (result : LoopResult)
deriving DecidableEq

/-- Requests issued during a run of main. -/
def MainResult.requests : MainResult → List ChatRequest
  | .ranSingle r => r.requests
  | .ranInteractive r => r.requests
  | _ => []

/-- The function main of main.py, lines 95 to 140, over the ambient
global credential and model.  Empty strings are falsy in the Python
truth tests of lines 101 to 103.  The version branch returns only when
debug is off, line 112.  Printing side effects of the early branches
are not modelled beyond the branch taken. -/
def runMain (tc : String → Nat) (globalAPIKey globalModel : String) (args : Args) (inputs : List String) (streams : Nat → StreamResponse) : MainResult :=
  if args.setAPIKey != emptyString || args.setModel != emptyString then
    MainResult.envWritten
      (if args.setAPIKey = emptyString then globalAPIKey else args.setAPIKey)
      (if args.setModel = emptyString then globalModel else args.setModel)
  else if args.version && !args.debug then
    MainResult.versionOnly
  else if args.tokenCount then
    MainResult.tokenCountShown (num_tokens_from_messages tc [userTurnOf (joinWords args.string)])
  else if args.stream then
    MainResult.ranInteractive (runInteractive tc globalModel args.temperature (joinWords args.string) inputs streams)
  else
    MainResult.ranSingle (runSingle tc globalModel args.temperature (joinWords args.string) (streams 0))

/-- Estimator transcribed from the words of the specification, for
comparison with the source estimator: per-message overhead times the
turn count, plus content tokens and one per present name field, plus
three.  The role value and the name value are not counted here. -/
def specEstimate (tc : String → Nat) (messages : List Turn) : Nat :=
  3 * messages.length +
    (messages.map (fun t => tc t.content +
      (match t.name with
       | some _ => 1
       | none => 0))).sum + 3

/-- Token counter assigning fifty tokens to every string, used for
concrete evaluations. -/
def tcConst50 : String → Nat := fun _ => 50

/-- Token counter assigning zero tokens to every string, used for
concrete evaluations where trimming must not trigger. -/
def tcZero : String → Nat := fun _ => 0

/-- Concrete string used in evaluations. -/
def strA : String := "aaaa"

/-- Concrete string used in evaluations. -/
def strB : String := "bbbb"

/-- Concrete string used in evaluations. -/
def strC : String := "cccc"

/-- Concrete question string used in evaluations. -/
def strQ : String := "qqqq"

/-- Concrete string used in evaluations. -/
def strHi : String := "hi"

/-- Concrete partial-response fragment used in evaluations. -/
def strHel : String := "Hel"

/-- Concrete user message used in evaluations. -/
def turnA : Turn := userTurnOf strA

/-- Concrete user message used in evaluations. -/
def turnB : Turn := userTurnOf strB

/-- Token counter under which the starting interactive conversation
overflows the module token limit while the user message alone fits. -/
def tcBig : String → Nat := fun s => if s = personaInteractive then 70000 else if s = strQ then 60000 else 2

/-- Fallback model name of main.py, line 11, used as a concrete global
model in evaluations. -/
def DEFAULT_MODEL : String := "gpt-4o-mini"

/-- Stream oracle answering every call with an empty completed stream. -/
def streamsOkEmpty : Nat → StreamResponse := fun _ => StreamResponse.ok []

/-- Stream oracle whose first answer completes and whose later answers
fail mid-stream after one fragment. -/
def streamsFailSecond : Nat → StreamResponse := fun n => if n = 0 then StreamResponse.ok [some strA] else StreamResponse.failAfter [some strHel]

/-- Stream oracle answering every call with a mid-stream failure after
one fragment. -/
def streamsFailAlways : Nat → StreamResponse := fun _ => StreamResponse.failAfter [some strHel]

/-- The estimator of the empty list is the bare reply-priming constant. -/
theorem num_tokens_nil (tc : String → Nat) : num_tokens_from_messages tc [] = 3 := rfl

/-- Shifting the fold accumulator of the estimator out of the fold. -/
theorem num_foldl_shift (tc : String → Nat) (l : List Turn) : ∀ a : Nat,
    l.foldl (fun acc m => acc + 3 + turnFieldTokens tc m) a
      = a + l.foldl (fun acc m => acc + 3 + turnFieldTokens tc m) 0 := by
  induction l with
  | nil => intro a; simp
  | cons m ms ih =>
    intro a
    simp only [List.foldl_cons]
    rw [ih (a + 3 + turnFieldTokens tc m), ih (0 + 3 + turnFieldTokens tc m)]
    omega

/-- Unfolding the estimator one message at a time. -/
theorem num_tokens_cons (tc : String → Nat) (m : Turn) (ms : List Turn) :
    num_tokens_from_messages tc (m :: ms)
      = 3 + turnFieldTokens tc m + num_tokens_from_messages tc ms := by
  simp only [num_tokens_from_messages, List.foldl_cons]
  rw [num_foldl_shift]
  omega

/-- The trim loop never sees the entry guard again: whenever it returns
a list, that list is a suffix of the input, its estimate fits under the
limit with the safety margin, and it is the longest suffix that fits. -/
theorem trimLoop_spec (tc : String → Nat) (limit : Nat) : ∀ (l res : List Turn),
    trimLoop tc limit l = some res →
      res <:+ l ∧ num_tokens_from_messages tc res + 100 ≤ limit ∧
        ∀ s : List Turn, s <:+ l → num_tokens_from_messages tc s + 100 ≤ limit →
          s.length ≤ res.length := by
  intro l
  induction l with
  | nil =>
    intro res h
    simp only [trimLoop] at h
    split at h
    · exact absurd h (by simp)
    · rename_i hfit
      have hres : res = [] := by
        injection h with h2
        exact h2.symm
      subst hres
      refine ⟨List.nil_suffix, by omega, ?_⟩
      intro s hs _
      exact hs.length_le
  | cons m ms ih =>
    intro res h
    simp only [trimLoop] at h
    split at h
    · rename_i hover
      obtain ⟨hsuf, hfit, hmax⟩ := ih res h
      refine ⟨hsuf.trans (List.suffix_cons m ms), hfit, ?_⟩
      intro s hs hsfit
      rcases List.suffix_cons_iff.mp hs with heq | htail
      · subst heq
        omega
      · exact hmax s htail hsfit
    · rename_i hfits
      have hres : res = m :: ms := by
        injection h with h2
        exact h2.symm
      subst hres
      refine ⟨List.suffix_refl _, by omega, ?_⟩
      intro s hs _
      exact hs.length_le

/-- A list that already fits is returned unchanged by the trim loop. -/
theorem trimLoop_of_fits (tc : String → Nat) (limit : Nat) (l : List Turn)
    (h : num_tokens_from_messages tc l + 100 ≤ limit) :
    trimLoop tc limit l = some l := by
  cases l with
  | nil => simp only [trimLoop]; rw [if_neg (by omega)]
  | cons m ms => simp only [trimLoop]; rw [if_neg (by omega)]

/-- With a limit of at least 103, the trim loop never pops the empty
list, because the empty list always fits. -/
theorem trimLoop_ne_none (tc : String → Nat) (limit : Nat) (hl : 103 ≤ limit) :
    ∀ l : List Turn, trimLoop tc limit l ≠ none := by
  intro l
  induction l with
  | nil =>
    simp only [trimLoop]
    rw [if_neg (by rw [num_tokens_nil]; omega)]
    simp
  | cons m ms ih =>
    simp only [trimLoop]
    split
    · exact ih
    · simp

/-- Whatever trim returns is a suffix of its input. -/
theorem trim_suffix (tc : String → Nat) (limit : Nat) (msgs res : List Turn)
    (h : trim tc limit msgs = some res) : res <:+ msgs := by
  unfold trim at h
  split at h
  · exact (trimLoop_spec tc limit msgs res h).1
  · injection h with h2
    exact h2 ▸ List.suffix_refl msgs

/-- At the module token limit the trim loop never raises IndexError. -/
theorem trim_tokenLimit_ne_none (tc : String → Nat) (msgs : List Turn) :
    trim tc tokenLimit msgs ≠ none := by
  unfold trim
  split
  · exact trimLoop_ne_none tc tokenLimit (by norm_num [tokenLimit]) msgs
  · simp

/-- A list returned by trim is a fixed point of trim. -/
theorem trim_fixed (tc : String → Nat) (limit : Nat) (msgs res : List Turn)
    (h : trim tc limit msgs = some res) : trim tc limit res = some res := by
  unfold trim at h ⊢
  split at h
  · have hfit := (trimLoop_spec tc limit msgs res h).2.1
    split
    · exact trimLoop_of_fits tc limit res hfit
    · rfl
  · rename_i hlen
    injection h with h2
    subst h2
    rw [if_neg hlen]

/-- The chunk loop appends the present contents to its accumulators in
arrival order: the write list gains exactly the present contents and
the buffer gains their concatenation. -/
theorem consumeFrom_spec : ∀ (chunks : List (Option String)) (w : List String) (b : String),
    consumeFrom w b chunks
      = (w ++ chunks.filterMap id, b ++ concatAll (chunks.filterMap id)) := by
  intro chunks
  induction chunks with
  | nil =>
    intro w b
    simp [consumeFrom, concatAll, emptyString, String.append_empty]
  | cons c rest ih =>
    intro w b
    cases c with
    | none => simp [consumeFrom, ih]
    | some s =>
      rw [consumeFrom, ih]
      simp [concatAll, String.append_assoc]

/-- The chunk loop from empty accumulators: the writes are the present
contents and the buffer is their concatenation. -/
theorem consume_spec (chunks : List (Option String)) :
    consume chunks = (chunks.filterMap id, concatAll (chunks.filterMap id)) := by
  rw [consume, consumeFrom_spec]
  simp [emptyString, String.empty_append]

/-- Empty strings contribute nothing to a concatenation: dropping them
leaves the concatenated result unchanged. -/
theorem concatAll_filter_ne (l : List String) :
    concatAll l = concatAll (l.filter (fun s => !(s == emptyString))) := by
  induction l with
  | nil => rfl
  | cons a t ih =>
    rw [concatAll, ih]
    by_cases ha : a = emptyString
    · subst ha
      simp only [List.filter_cons, beq_self_eq_true, Bool.not_true, Bool.false_eq_true, if_false]
      exact String.empty_append _
    · have hb : (!(a == emptyString)) = true := by simp [ha]
      simp only [List.filter_cons, hb, if_true, concatAll]

/-- Any request issued by ask carries the ambient global model and the
temperature argument that the call received, with streaming on. -/
theorem ask_requestOf_spec (tc : String → Nat) (gm : String) (resp : StreamResponse)
    (msgs : List Turn) (t : ℚ) (req : ChatRequest)
    (h : AskOutcome.requestOf (ask tc gm resp msgs t) = some req) :
    req.model = gm ∧ req.temperature = t ∧ req.stream = true := by
  unfold ask at h
  split at h
  · simp [AskOutcome.requestOf] at h
  · split at h
    · simp [AskOutcome.requestOf] at h
    · split at h
      · simp only [AskOutcome.requestOf] at h
        injection h with h2
        subst h2
        exact ⟨rfl, rfl, rfl⟩
      · simp only [AskOutcome.requestOf] at h
        injection h with h2
        subst h2
        exact ⟨rfl, rfl, rfl⟩

/-- On a nonempty conversation, the list that ask leaves behind is
exactly the trim of its input at the module token limit. -/
theorem ask_trimmedOf_spec (tc : String → Nat) (gm : String) (resp : StreamResponse)
    (m : Turn) (ms : List Turn) (t : ℚ) :
    AskOutcome.trimmedOf (ask tc gm resp (m :: ms) t) = trim tc tokenLimit (m :: ms) := by
  unfold ask
  rw [if_neg (by simp)]
  cases htr : trim tc tokenLimit (m :: ms) with
  | none => rfl
  | some trimmed => cases resp <;> rfl

/-- On a nonempty conversation ask never takes the empty-conversation
early return. -/
theorem ask_ne_noop (tc : String → Nat) (gm : String) (resp : StreamResponse)
    (m : Turn) (ms : List Turn) (t : ℚ) :
    ask tc gm resp (m :: ms) t ≠ AskOutcome.noop := by
  unfold ask
  rw [if_neg (by simp)]
  cases htr : trim tc tokenLimit (m :: ms) with
  | none => simp
  | some trimmed => cases resp <;> simp

/-- At the module token limit ask never raises IndexError. -/
theorem ask_ne_popError (tc : String → Nat) (gm : String) (resp : StreamResponse)
    (msgs : List Turn) (t : ℚ) :
    ask tc gm resp msgs t ≠ AskOutcome.popError := by
  unfold ask
  split
  · simp
  · cases htr : trim tc tokenLimit msgs with
    | none => exact absurd htr (trim_tokenLimit_ne_none tc msgs)
    | some trimmed => cases resp <;> simp

/-- A completed ask call on a completed stream, in full: the conversation
is trimmed at the module limit, the request carries the trimmed list,
every present fragment is written in order followed by one newline, and
the returned buffer is the concatenation of the present fragments. -/
theorem ask_ok_spec (tc : String → Nat) (gm : String) (m : Turn) (ms : List Turn)
    (t : ℚ) (chunks : List (Option String)) :
    ∃ trimmed : List Turn, trim tc tokenLimit (m :: ms) = some trimmed ∧
      ask tc gm (StreamResponse.ok chunks) (m :: ms) t
        = AskOutcome.completed trimmed (ChatRequest.mk gm trimmed t true)
            (chunks.filterMap id ++ [newlineString]) (concatAll (chunks.filterMap id)) := by
  cases htr : trim tc tokenLimit (m :: ms) with
  | none => exact absurd htr (trim_tokenLimit_ne_none tc (m :: ms))
  | some trimmed =>
    refine ⟨trimmed, rfl, ?_⟩
    unfold ask
    rw [if_neg (by simp), htr]
    simp [consume_spec]

/-- A failing ask call, in full: the conversation is trimmed, the
request is issued, the fragments delivered before the failure are
written with no trailing newline, and the outcome is the propagated
transport exception. -/
theorem ask_fail_spec (tc : String → Nat) (gm : String) (m : Turn) (ms : List Turn)
    (t : ℚ) (chunks : List (Option String)) :
    ∃ trimmed : List Turn, trim tc tokenLimit (m :: ms) = some trimmed ∧
      ask tc gm (StreamResponse.failAfter chunks) (m :: ms) t
        = AskOutcome.transportFail trimmed (ChatRequest.mk gm trimmed t true)
            (chunks.filterMap id) := by
  cases htr : trim tc tokenLimit (m :: ms) with
  | none => exact absurd htr (trim_tokenLimit_ne_none tc (m :: ms))
  | some trimmed =>
    refine ⟨trimmed, rfl, ?_⟩
    unfold ask
    rw [if_neg (by simp), htr]
    simp [consume_spec]

/-- Variant of the trimmed-list equation for any nonempty conversation. -/
theorem ask_trimmedOf_of_ne (tc : String → Nat) (gm : String) (resp : StreamResponse)
    (msgs : List Turn) (t : ℚ) (h : msgs ≠ []) :
    AskOutcome.trimmedOf (ask tc gm resp msgs t) = trim tc tokenLimit msgs := by
  cases msgs with
  | nil => exact absurd rfl h
  | cons m ms => exact ask_trimmedOf_spec tc gm resp m ms t

/-- Variant of the noop impossibility for any nonempty conversation. -/
theorem ask_ne_noop_of_ne (tc : String → Nat) (gm : String) (resp : StreamResponse)
    (msgs : List Turn) (t : ℚ) (h : msgs ≠ []) :
    ask tc gm resp msgs t ≠ AskOutcome.noop := by
  cases msgs with
  | nil => exact absurd rfl h
  | cons m ms => exact ask_ne_noop tc gm resp m ms t

/-- Membership transfers through a suffix for boolean predicates. -/
theorem all_of_suffix {α : Type} {p : α → Bool} {s l : List α} (h : s <:+ l)
    (hl : l.all p = true) : s.all p = true :=
  List.all_eq_true.mpr fun x hx => List.all_eq_true.mp hl x (h.subset hx)

/-- A suffix of a list whose tail satisfies a predicate everywhere also
has its tail satisfying the predicate everywhere. -/
theorem tail_all_of_suffix {α : Type} {p : α → Bool} {s l : List α} (h : s <:+ l)
    (hl : l.tail.all p = true) : s.tail.all p = true := by
  cases l with
  | nil =>
    have : s = [] := List.suffix_nil.mp h
    subst this
    rfl
  | cons a t =>
    rcases List.suffix_cons_iff.mp h with heq | htail
    · subst heq
      exact hl
    · have hs : s.all p = true := all_of_suffix htail hl
      exact all_of_suffix (List.tail_suffix s) hs

/-- Appending an element that satisfies the predicate preserves the
everywhere-on-the-tail property. -/
theorem tail_all_append {α : Type} {p : α → Bool} {l : List α} (hl : l.tail.all p = true)
    {t : α} (ht : p t = true) : (l ++ [t]).tail.all p = true := by
  cases l with
  | nil => simp [ht]
  | cons a u =>
    simp only [List.cons_append, List.tail_cons] at hl ⊢
    simp [List.all_append, hl, ht]

/-- When every element of the tail fails a test, the whole list passes
it at most once. -/
theorem countP_le_one_of_tail {α : Type} (c : List α) (p : α → Bool)
    (h : c.tail.all (fun t => !(p t)) = true) : c.countP p ≤ 1 := by
  cases c with
  | nil => simp
  | cons a t =>
    simp only [List.tail_cons] at h
    have hz : t.countP p = 0 := by
      refine List.countP_eq_zero.mpr ?_
      intro x hx
      have := List.all_eq_true.mp h x hx
      simp at this
      simp [this]
    rw [List.countP_cons, hz]
    split <;> omega

/-- Requests issued by the interactive loop extend the accumulator, and
every request the loop itself issues carries the global model and the
default temperature, because the recursive calls of main pass no
temperature argument. -/
theorem interactiveLoop_requests_spec (tc : String → Nat) (gm : String)
    (streams : Nat → StreamResponse) :
    ∀ (inputs : List String) (k : Nat) (chat : List Turn) (reqs : List ChatRequest)
      (outs : List String),
      ∃ l2 : List ChatRequest,
        (interactiveLoop tc gm streams k inputs chat reqs outs).requests = reqs ++ l2 ∧
          ∀ r ∈ l2, r.model = gm ∧ r.temperature = defaultTemperature := by
  intro inputs
  induction inputs with
  | nil =>
    intro k chat reqs outs
    exact ⟨[], by simp [interactiveLoop], by simp⟩
  | cons u rest ih =>
    intro k chat reqs outs
    by_cases hu : u = exitWord
    · exact ⟨[], by simp [interactiveLoop, hu], by simp⟩
    · cases hz : ask tc gm (streams k) (chat ++ [userTurnOf u]) defaultTemperature with
      | noop => exact ⟨[], by simp [interactiveLoop, hu, hz], by simp⟩
      | popError => exact ⟨[], by simp [interactiveLoop, hu, hz], by simp⟩
      | completed trimmed req ws buffer =>
        obtain ⟨l2, hl2, hall⟩ :=
          ih (k + 1) (trimmed ++ [assistantTurnOf buffer]) (reqs ++ [req]) (outs ++ ws)
        have hreq : req.model = gm ∧ req.temperature = defaultTemperature := by
          have hro : AskOutcome.requestOf
              (ask tc gm (streams k) (chat ++ [userTurnOf u]) defaultTemperature)
                = some req := by rw [hz]; rfl
          obtain ⟨h1, h2, _⟩ := ask_requestOf_spec tc gm (streams k)
            (chat ++ [userTurnOf u]) defaultTemperature req hro
          exact ⟨h1, h2⟩
        refine ⟨req :: l2, ?_, ?_⟩
        · have hstep : interactiveLoop tc gm streams k (u :: rest) chat reqs outs
              = interactiveLoop tc gm streams (k + 1) rest
                  (trimmed ++ [assistantTurnOf buffer]) (reqs ++ [req]) (outs ++ ws) := by
            simp [interactiveLoop, hu, hz]
          rw [hstep, hl2]
          simp
        · intro r hr
          rcases List.mem_cons.mp hr with hr | hr
          · subst hr; exact hreq
          · exact hall r hr
      | transportFail trimmed req ws =>
        have hreq : req.model = gm ∧ req.temperature = defaultTemperature := by
          have hro : AskOutcome.requestOf
              (ask tc gm (streams k) (chat ++ [userTurnOf u]) defaultTemperature)
                = some req := by rw [hz]; rfl
          obtain ⟨h1, h2, _⟩ := ask_requestOf_spec tc gm (streams k)
            (chat ++ [userTurnOf u]) defaultTemperature req hro
          exact ⟨h1, h2⟩
        refine ⟨[req], by simp [interactiveLoop, hu, hz], ?_⟩
        intro r hr
        simp at hr
        subst hr
        exact hreq

/-- Requests of a whole interactive run: the first one carries the
configured temperature, all later ones carry the default. -/
theorem runInteractive_requests_spec (tc : String → Nat) (gm : String) (tmp : ℚ)
    (q : String) (inputs : List String) (streams : Nat → StreamResponse) :
    ∃ (req0 : ChatRequest) (l2 : List ChatRequest),
      (runInteractive tc gm tmp q inputs streams).requests = req0 :: l2 ∧
        req0.model = gm ∧ req0.temperature = tmp ∧
          ∀ r ∈ l2, r.model = gm ∧ r.temperature = defaultTemperature := by
  cases hz : ask tc gm (streams 0) [systemTurnInteractive, userTurnOf q] tmp with
  | noop => exact absurd hz (ask_ne_noop tc gm (streams 0) systemTurnInteractive [userTurnOf q] tmp)
  | popError => exact absurd hz (ask_ne_popError tc gm (streams 0) [systemTurnInteractive, userTurnOf q] tmp)
  | completed trimmed req ws buffer =>
    have hro : AskOutcome.requestOf
        (ask tc gm (streams 0) [systemTurnInteractive, userTurnOf q] tmp) = some req := by
      rw [hz]; rfl
    obtain ⟨h1, h2, _⟩ := ask_requestOf_spec tc gm (streams 0)
      [systemTurnInteractive, userTurnOf q] tmp req hro
    obtain ⟨l2, hl2, hall⟩ := interactiveLoop_requests_spec tc gm streams inputs 1
      (trimmed ++ [assistantTurnOf buffer]) [req] ws
    refine ⟨req, l2, ?_, h1, h2, hall⟩
    have hstep : runInteractive tc gm tmp q inputs streams
        = interactiveLoop tc gm streams 1 inputs
            (trimmed ++ [assistantTurnOf buffer]) [req] ws := by
      simp [runInteractive, hz]
    rw [hstep, hl2]
    simp
  | transportFail trimmed req ws =>
    have hro : AskOutcome.requestOf
        (ask tc gm (streams 0) [systemTurnInteractive, userTurnOf q] tmp) = some req := by
      rw [hz]; rfl
    obtain ⟨h1, h2, _⟩ := ask_requestOf_spec tc gm (streams 0)
      [systemTurnInteractive, userTurnOf q] tmp req hro
    refine ⟨req, [], ?_, h1, h2, by simp⟩
    simp [runInteractive, hz]

/-- The interactive loop preserves any tail-of-the-conversation
invariant that holds for appended user and assistant messages: trimming
only ever takes suffixes and appends only ever add user or assistant
messages. -/
theorem interactiveLoop_tail_all (tc : String → Nat) (gm : String)
    (streams : Nat → StreamResponse) (p : Turn → Bool)
    (huser : ∀ s, p (userTurnOf s) = true)
    (hassist : ∀ s, p (assistantTurnOf s) = true) :
    ∀ (inputs : List String) (k : Nat) (chat : List Turn) (reqs : List ChatRequest)
      (outs : List String),
      chat.tail.all p = true →
      ((interactiveLoop tc gm streams k inputs chat reqs outs).conversation).tail.all p
        = true := by
  intro inputs
  induction inputs with
  | nil =>
    intro k chat reqs outs hchat
    simpa [interactiveLoop] using hchat
  | cons u rest ih =>
    intro k chat reqs outs hchat
    by_cases hu : u = exitWord
    · simpa [interactiveLoop, hu] using hchat
    · have hchat1 : ((chat ++ [userTurnOf u]).tail.all p) = true :=
        tail_all_append hchat (huser u)
      cases hz : ask tc gm (streams k) (chat ++ [userTurnOf u]) defaultTemperature with
      | noop => simpa [interactiveLoop, hu, hz] using hchat1
      | popError => simpa [interactiveLoop, hu, hz] using hchat1
      | completed trimmed req ws buffer =>
        have htr : trim tc tokenLimit (chat ++ [userTurnOf u]) = some trimmed := by
          have := ask_trimmedOf_of_ne tc gm (streams k) (chat ++ [userTurnOf u])
            defaultTemperature (by simp)
          rw [hz] at this
          exact this.symm
        have hsuf := trim_suffix tc tokenLimit (chat ++ [userTurnOf u]) trimmed htr
        have htrimmed : trimmed.tail.all p = true := tail_all_of_suffix hsuf hchat1
        have hnext : ((trimmed ++ [assistantTurnOf buffer]).tail.all p) = true :=
          tail_all_append htrimmed (hassist buffer)
        have hstep : interactiveLoop tc gm streams k (u :: rest) chat reqs outs
            = interactiveLoop tc gm streams (k + 1) rest
                (trimmed ++ [assistantTurnOf buffer]) (reqs ++ [req]) (outs ++ ws) := by
          simp [interactiveLoop, hu, hz]
        rw [hstep]
        exact ih (k + 1) (trimmed ++ [assistantTurnOf buffer]) (reqs ++ [req]) (outs ++ ws) hnext
      | transportFail trimmed req ws =>
        have htr : trim tc tokenLimit (chat ++ [userTurnOf u]) = some trimmed := by
          have := ask_trimmedOf_of_ne tc gm (streams k) (chat ++ [userTurnOf u])
            defaultTemperature (by simp)
          rw [hz] at this
          exact this.symm
        have hsuf := trim_suffix tc tokenLimit (chat ++ [userTurnOf u]) trimmed htr
        have htrimmed : trimmed.tail.all p = true := tail_all_of_suffix hsuf hchat1
        simpa [interactiveLoop, hu, hz] using htrimmed

/-- The conversation left by a whole interactive run keeps its tail
free of any property that user and assistant messages lack. -/
theorem runInteractive_tail_all (tc : String → Nat) (gm : String) (tmp : ℚ)
    (q : String) (inputs : List String) (streams : Nat → StreamResponse)
    (p : Turn → Bool)
    (huser : ∀ s, p (userTurnOf s) = true)
    (hassist : ∀ s, p (assistantTurnOf s) = true) :
    ((runInteractive tc gm tmp q inputs streams).conversation).tail.all p = true := by
  have hchat0 : (([systemTurnInteractive, userTurnOf q] : List Turn).tail.all p) = true := by
    simp [huser q]
  cases hz : ask tc gm (streams 0) [systemTurnInteractive, userTurnOf q] tmp with
  | noop => simpa [runInteractive, hz] using hchat0
  | popError => simpa [runInteractive, hz] using hchat0
  | completed trimmed req ws buffer =>
    have htr : trim tc tokenLimit [systemTurnInteractive, userTurnOf q] = some trimmed := by
      have := ask_trimmedOf_of_ne tc gm (streams 0) [systemTurnInteractive, userTurnOf q]
        tmp (by simp)
      rw [hz] at this
      exact this.symm
    have hsuf := trim_suffix tc tokenLimit [systemTurnInteractive, userTurnOf q] trimmed htr
    have htrimmed : trimmed.tail.all p = true := tail_all_of_suffix hsuf hchat0
    have hnext : ((trimmed ++ [assistantTurnOf buffer]).tail.all p) = true :=
      tail_all_append htrimmed (hassist buffer)
    have hstep : runInteractive tc gm tmp q inputs streams
        = interactiveLoop tc gm streams 1 inputs
            (trimmed ++ [assistantTurnOf buffer]) [req] ws := by
      simp [runInteractive, hz]
    rw [hstep]
    exact interactiveLoop_tail_all tc gm streams p huser hassist inputs 1
      (trimmed ++ [assistantTurnOf buffer]) [req] ws hnext
  | transportFail trimmed req ws =>
    have htr : trim tc tokenLimit [systemTurnInteractive, userTurnOf q] = some trimmed := by
      have := ask_trimmedOf_of_ne tc gm (streams 0) [systemTurnInteractive, userTurnOf q]
        tmp (by simp)
      rw [hz] at this
      exact this.symm
    have hsuf := trim_suffix tc tokenLimit [systemTurnInteractive, userTurnOf q] trimmed htr
    have htrimmed : trimmed.tail.all p = true := tail_all_of_suffix hsuf hchat0
    simpa [runInteractive, hz] using htrimmed

/-- Requests issued by the single-shot branch carry the global model
and the configured temperature. -/
theorem runSingle_requests_spec (tc : String → Nat) (gm : String) (tmp : ℚ)
    (q : String) (resp : StreamResponse) :
    ∀ r ∈ (runSingle tc gm tmp q resp).requests, r.model = gm ∧ r.temperature = tmp := by
  cases hz : ask tc gm resp [systemTurnSingle, userTurnOf q] tmp with
  | noop => simp [runSingle, hz]
  | popError => simp [runSingle, hz]
  | completed trimmed req ws buffer =>
    have hro : AskOutcome.requestOf (ask tc gm resp [systemTurnSingle, userTurnOf q] tmp)
        = some req := by rw [hz]; rfl
    obtain ⟨h1, h2, _⟩ := ask_requestOf_spec tc gm resp
      [systemTurnSingle, userTurnOf q] tmp req hro
    intro r hr
    simp [runSingle, hz] at hr
    subst hr
    exact ⟨h1, h2⟩
  | transportFail trimmed req ws =>
    have hro : AskOutcome.requestOf (ask tc gm resp [systemTurnSingle, userTurnOf q] tmp)
        = some req := by rw [hz]; rfl
    obtain ⟨h1, h2, _⟩ := ask_requestOf_spec tc gm resp
      [systemTurnSingle, userTurnOf q] tmp req hro
    intro r hr
    simp [runSingle, hz] at hr
    subst hr
    exact ⟨h1, h2⟩

/-- Claim C1, counterexample.  A two-message conversation whose
estimate plus the margin of 100 exceeds the limit of 150 is trimmed all
the way to the empty conversation: the single-turn guard of line 80 is
checked once before the loop and never inside it, so the last remaining
turn is removed, contradicting the claim that it never is. -/
theorem claim1_counterexample :
    2 ≤ ([turnA, turnB] : List Turn).length ∧
    num_tokens_from_messages tcConst50 [turnA, turnB] + 100 > 150 ∧
    trim tcConst50 150 [turnA, turnB] = some [] := by decide

/-- Claim C1, amended.  For every conversation with at least two turns,
trimming removes turns strictly from the front, recomputing the
estimate after each removal, until the estimate plus 100 fits under the
limit: the result is the longest suffix that fits.  A one-turn
conversation is never trimmed, but the guard is only checked on entry,
so a conversation of two or more turns can lose its last turn as well. -/
theorem claim1_trim_front_eviction : ∀ (tc : String → Nat) (limit : Nat),
    (∀ t : Turn, trim tc limit [t] = some [t]) ∧
    ∀ (msgs res : List Turn), 2 ≤ msgs.length → trim tc limit msgs = some res →
      res <:+ msgs ∧ num_tokens_from_messages tc res + 100 ≤ limit ∧
        ∀ s : List Turn, s <:+ msgs → num_tokens_from_messages tc s + 100 ≤ limit →
          s.length ≤ res.length := by
  intro tc limit
  constructor
  · intro t
    unfold trim
    rw [if_neg (by simp)]
  · intro msgs res h2 htrim
    unfold trim at htrim
    rw [if_pos (by omega)] at htrim
    exact trimLoop_spec tc limit msgs res htrim

/-- Claim C1, witness: the amended theorem applied to the concrete
two-message conversation that trims to the empty list. -/
theorem claim1_witness :
    2 ≤ ([turnA, turnB] : List Turn).length ∧
    (([] : List Turn) <:+ [turnA, turnB] ∧
      num_tokens_from_messages tcConst50 [] + 100 ≤ 150) := by
  refine ⟨by decide, ?_⟩
  have h := (claim1_trim_front_eviction tcConst50 150).2 [turnA, turnB] []
    (by decide) (by decide)
  exact ⟨h.1, h.2.1⟩

/-- Claim C2, counterexample.  Under the token counter that counts
characters, one user message with content hi is estimated at 12 by the
source estimator, because the role value is also encoded and counted,
while the formula of the claim gives 8. -/
theorem claim2_counterexample :
    num_tokens_from_messages String.length [userTurnOf strHi]
      ≠ specEstimate String.length [userTurnOf strHi] := by decide

/-- Claim C2, amended.  The estimate equals three per turn plus, for
each turn, the token counts of all of its field values, role and
content and, when a name field is present, the name value plus one,
plus the final constant three. -/
theorem claim2_estimate_formula : ∀ (tc : String → Nat) (messages : List Turn),
    num_tokens_from_messages tc messages
      = 3 * messages.length + (messages.map (turnFieldTokens tc)).sum + 3 := by
  intro tc messages
  induction messages with
  | nil => rfl
  | cons m ms ih =>
    rw [num_tokens_cons, ih, List.map_cons, List.sum_cons, List.length_cons]
    omega

/-- Claim C3, counterexample.  Under a token counter that makes the
starting interactive conversation overflow the module limit while the
user message alone fits, the trim of the Window Manager evicts the
leading system turn: nothing in the source protects it. -/
theorem claim3_counterexample :
    trim tcBig tokenLimit [systemTurnInteractive, userTurnOf strQ]
      = some [userTurnOf strQ] ∧
    systemTurnInteractive ∉ [userTurnOf strQ] := by decide

/-- Claim C3, amended.  The leading system turn is injected once at
conversation start and never duplicated: after any number of trim and
append cycles every turn past the head is a user or assistant turn, so
the conversation holds at most one system turn and only at the front.
The system turn is however not protected from eviction, as the
counterexample shows. -/
theorem claim3_system_turn : ∀ (tc : String → Nat) (gm : String) (tmp : ℚ) (q : String)
    (inputs : List String) (streams : Nat → StreamResponse),
    ((runInteractive tc gm tmp q inputs streams).conversation).tail.all
      (fun t => !(t.role == roleSystem)) = true ∧
    (runInteractive tc gm tmp q inputs streams).conversation.countP
      (fun t => t.role == roleSystem) ≤ 1 := by
  intro tc gm tmp q inputs streams
  have h := runInteractive_tail_all tc gm tmp q inputs streams
    (fun t => !(t.role == roleSystem)) (fun s => rfl) (fun s => rfl)
  exact ⟨h, countP_le_one_of_tail _ _ h⟩

/-- Claim C4, counterexample.  A present but empty fragment is not
skipped: the consumer forwards it to the output sink, so the write
sequence contains the empty fragment, contradicting the claim that
empty fragments are never forwarded; only absent contents are tested. -/
theorem claim4_counterexample :
    AskOutcome.writesOf (ask tcZero DEFAULT_MODEL (StreamResponse.ok [some emptyString])
        [userTurnOf strHi] defaultTemperature)
      = [emptyString, newlineString] ∧
    emptyString ∈ AskOutcome.writesOf (ask tcZero DEFAULT_MODEL
      (StreamResponse.ok [some emptyString]) [userTurnOf strHi] defaultTemperature) := by decide

/-- Claim C4, amended.  Only absent fragments are skipped; every
present fragment, the empty string included, is forwarded to the sink
in arrival order, followed by one closing newline, and is appended to
the accumulator.  The accumulated result still equals the exact
concatenation, in arrival order, of all non-empty fragments, because
empty fragments contribute nothing to the concatenation. -/
theorem claim4_stream_accumulation : ∀ (tc : String → Nat) (gm : String) (m : Turn)
    (ms : List Turn) (t : ℚ) (chunks : List (Option String)),
    AskOutcome.writesOf (ask tc gm (StreamResponse.ok chunks) (m :: ms) t)
      = chunks.filterMap id ++ [newlineString] ∧
    AskOutcome.bufferOf (ask tc gm (StreamResponse.ok chunks) (m :: ms) t)
      = some (concatAll (chunks.filterMap id)) ∧
    concatAll (chunks.filterMap id)
      = concatAll ((chunks.filterMap id).filter (fun s => !(s == emptyString))) := by
  intro tc gm m ms t chunks
  obtain ⟨trimmed, htr, heq⟩ := ask_ok_spec tc gm m ms t chunks
  rw [heq]
  exact ⟨rfl, rfl, concatAll_filter_ne _⟩

/-- Claim C5, counterexample.  In a concrete interactive run whose
second exchange fails mid-stream, the loop does not continue to the
next operator input: the run ends with the propagated transport
exception, the remaining input line is never consumed, and the
conversation ends at the unanswered user turn. -/
theorem claim5_counterexample :
    (runInteractive tcZero DEFAULT_MODEL defaultTemperature strQ [strB, strC]
      streamsFailSecond).outcome = LoopExit.transportError ∧
    (runInteractive tcZero DEFAULT_MODEL defaultTemperature strQ [strB, strC]
      streamsFailSecond).leftover = [strC] ∧
    ((runInteractive tcZero DEFAULT_MODEL defaultTemperature strQ [strB, strC]
      streamsFailSecond).conversation.getLast?.map Turn.role) = some roleUser := by decide

/-- Claim C5, amended.  When the transport fails mid-stream during an
interactive exchange, no assistant turn is appended for it and the
conversation is left at the trimmed list ending in the user turn, but
the loop does not catch the failure: the run terminates with the
propagated exception and the remaining operator inputs are left
unconsumed, instead of continuing to the next input. -/
theorem claim5_transport_failure : ∀ (tc : String → Nat) (gm : String)
    (streams : Nat → StreamResponse) (k : Nat) (u : String) (rest : List String)
    (chat : List Turn) (reqs : List ChatRequest) (outs : List String)
    (trimmed : List Turn) (req : ChatRequest) (ws : List String),
    ¬ (u = exitWord) →
    ask tc gm (streams k) (chat ++ [userTurnOf u]) defaultTemperature
      = AskOutcome.transportFail trimmed req ws →
    interactiveLoop tc gm streams k (u :: rest) chat reqs outs
      = LoopResult.mk trimmed (reqs ++ [req]) (outs ++ ws) LoopExit.transportError rest := by
  intro tc gm streams k u rest chat reqs outs trimmed req ws hu hask
  simp [interactiveLoop, hu, hask]

/-- Claim C5, witness: the amended theorem applied to a concrete failing
exchange. -/
theorem claim5_witness :
    (¬ (strB = exitWord)) ∧
    interactiveLoop tcZero DEFAULT_MODEL streamsFailAlways 0 [strB] [userTurnOf strQ] [] []
      = LoopResult.mk [userTurnOf strQ, userTurnOf strB]
          [ChatRequest.mk DEFAULT_MODEL [userTurnOf strQ, userTurnOf strB]
            defaultTemperature true]
          [strHel] LoopExit.transportError [] := by
  refine ⟨by decide, ?_⟩
  exact claim5_transport_failure tcZero DEFAULT_MODEL streamsFailAlways 0 strB []
    [userTurnOf strQ] [] [] [userTurnOf strQ, userTurnOf strB]
    (ChatRequest.mk DEFAULT_MODEL [userTurnOf strQ, userTurnOf strB] defaultTemperature true)
    [strHel] (by decide) rfl

/-- Claim C6, counterexample.  End of input is not treated identically
to the sentinel: a concrete run with exhausted operator input ends in
the uncaught EOFError state, while the same run with the sentinel as
input ends gracefully, and the two exits differ. -/
theorem claim6_counterexample :
    (runInteractive tcZero DEFAULT_MODEL defaultTemperature strQ [] streamsOkEmpty).outcome
      = LoopExit.eofError ∧
    (runInteractive tcZero DEFAULT_MODEL defaultTemperature strQ [exitWord]
      streamsOkEmpty).outcome = LoopExit.graceful ∧
    LoopExit.eofError ≠ LoopExit.graceful := by decide

/-- Claim C6, amended.  An operator input exactly equal to the
case-sensitive sentinel terminates the loop gracefully without
appending a turn and without invoking the Stream Consumer, leaving the
conversation, requests and writes untouched.  End of input on the
operator stream is however not identical to the sentinel: the read
raises EOFError, which nothing catches, so the run ends in an abnormal
exit that differs from the graceful one. -/
theorem claim6_exit_and_eof : ∀ (tc : String → Nat) (gm : String)
    (streams : Nat → StreamResponse) (k : Nat) (rest : List String) (chat : List Turn)
    (reqs : List ChatRequest) (outs : List String),
    interactiveLoop tc gm streams k (exitWord :: rest) chat reqs outs
      = LoopResult.mk chat reqs outs LoopExit.graceful rest ∧
    interactiveLoop tc gm streams k [] chat reqs outs
      = LoopResult.mk chat reqs outs LoopExit.eofError [] ∧
    LoopExit.eofError ≠ LoopExit.graceful := by
  intro tc gm streams k rest chat reqs outs
  exact ⟨rfl, rfl, by decide⟩

/-- Claim C7, confirmed.  On the empty conversation ask returns
immediately: no request is issued, nothing is written to the sink, and
the returned value is absent, a no-op rather than an error. -/
theorem claim7_empty_noop : ∀ (tc : String → Nat) (gm : String) (resp : StreamResponse)
    (t : ℚ),
    ask tc gm resp [] t = AskOutcome.noop ∧
    AskOutcome.requestOf (ask tc gm resp [] t) = none ∧
    AskOutcome.writesOf (ask tc gm resp [] t) = [] ∧
    AskOutcome.bufferOf (ask tc gm resp [] t) = none := by
  intro tc gm resp t
  exact ⟨rfl, rfl, rfl, rfl⟩

/-- Claim C8, confirmed.  For every token counter, budget limit and
conversation, trimming is idempotent: applying trim to the result of a
successful trim returns that result unchanged. -/
theorem claim8_trim_idempotent : ∀ (tc : String → Nat) (limit : Nat) (msgs : List Turn),
    (trim tc limit msgs).bind (trim tc limit) = trim tc limit msgs := by
  intro tc limit msgs
  cases h : trim tc limit msgs with
  | none => rfl
  | some res => exact trim_fixed tc limit msgs res h

/-- Claim C9, confirmed.  The run of main is unchanged under any values
of the model and tokenLimit command-line arguments, every request it
issues carries the ambient global model, the list that ask leaves
behind on a nonempty conversation is exactly the trim at the module
constant tokenLimit, and that constant is 128000. -/
theorem claim9_ask_globals : ∀ (tc : String → Nat) (gak gm : String)
    (inputs : List String) (streams : Nat → StreamResponse),
    (∀ (tk m1 m2 : String) (v tcnt st db : Bool) (tmp : ℚ) (l1 l2 : Nat)
       (sa sm : String) (ss : List String),
       runMain tc gak gm (Args.mk tk m1 v tcnt st tmp l1 sa sm db ss) inputs streams
         = runMain tc gak gm (Args.mk tk m2 v tcnt st tmp l2 sa sm db ss) inputs streams) ∧
    (∀ args : Args,
       (runMain tc gak gm args inputs streams).requests.all
         (fun r => decide (r.model = gm)) = true) ∧
    (∀ (resp : StreamResponse) (m : Turn) (ms : List Turn) (t : ℚ),
       AskOutcome.trimmedOf (ask tc gm resp (m :: ms) t) = trim tc tokenLimit (m :: ms)) ∧
    tokenLimit = 128000 := by
  intro tc gak gm inputs streams
  refine ⟨fun tk m1 m2 v tcnt st db tmp l1 l2 sa sm ss => rfl, ?_,
    fun resp m ms t => ask_trimmedOf_spec tc gm resp m ms t, rfl⟩
  intro args
  unfold runMain
  split
  · rfl
  · split
    · rfl
    · split
      · rfl
      · split
        · simp only [MainResult.requests]
          obtain ⟨req0, l2, hl, hm, _, hall⟩ := runInteractive_requests_spec tc gm
            args.temperature (joinWords args.string) inputs streams
          rw [hl]
          refine List.all_eq_true.mpr ?_
          intro r hr
          rcases List.mem_cons.mp hr with hr | hr
          · subst hr
            exact decide_eq_true hm
          · exact decide_eq_true (hall r hr).1
        · simp only [MainResult.requests]
          refine List.all_eq_true.mpr ?_
          intro r hr
          exact decide_eq_true
            (runSingle_requests_spec tc gm args.temperature (joinWords args.string)
              (streams 0) r hr).1

/-- Claim C10, confirmed.  In an interactive run the first request
carries the configured temperature while every later request carries
the default of seven tenths, because the recursive ask calls of the
loop pass no temperature argument. -/
theorem claim10_temperature : ∀ (tc : String → Nat) (gm : String) (tmp : ℚ) (q : String)
    (inputs : List String) (streams : Nat → StreamResponse),
    ((runInteractive tc gm tmp q inputs streams).requests.head?.map ChatRequest.temperature)
      = some tmp ∧
    ((runInteractive tc gm tmp q inputs streams).requests.tail.all
      (fun r => decide (r.temperature = defaultTemperature))) = true ∧
    defaultTemperature = 7/10 := by
  intro tc gm tmp q inputs streams
  obtain ⟨req0, l2, hl, _, htemp, hall⟩ :=
    runInteractive_requests_spec tc gm tmp q inputs streams
  rw [hl]
  refine ⟨by simp [htemp], ?_, rfl⟩
  simp only [List.tail_cons]
  exact List.all_eq_true.mpr fun r hr => decide_eq_true (hall r hr).2
